import Mathlib

/-!
Verification of the asynchronous video transcoding pipeline:
the rendition planner, thumbnail generator and pipeline orchestrator of
`src/utils/videoProcessor.ts`, and the in-process job queue of
`src/utils/videoQueue.ts`.

External collaborators (media engine, blob store, relational store,
filesystem) are modelled as oracle parameters; machine state (the in-memory
queue, the scratch filesystem) is passed explicitly.
-/

/-- A row of the static rendition ladder (`DEFAULT_FORMATS` entries and the
synthetic `original` entry share this shape). -/
structure FormatSpec where
  quality : String
  resolution : String
  bitrate : String
  codec : String
deriving DecidableEq, Repr

/-- Probe result, as assembled by `getVideoMetadata`. -/
structure SourceMetadata where
  duration : ℚ
  width : ℕ
  height : ℕ
  fps : ℚ
  codec : String
  bitrate : String
deriving DecidableEq, Repr

/-- The static rendition ladder `DEFAULT_FORMATS`. -/
def DEFAULT_FORMATS : List FormatSpec :=
  [ { quality := "240p", resolution := "426x240", bitrate := "400k", codec := "libx264" },
    { quality := "360p", resolution := "640x360", bitrate := "800k", codec := "libx264" },
    { quality := "480p", resolution := "854x480", bitrate := "1200k", codec := "libx264" },
    { quality := "720p", resolution := "1280x720", bitrate := "2500k", codec := "libx264" },
    { quality := "1080p", resolution := "1920x1080", bitrate := "5000k", codec := "libx264" } ]

/-- Split a character list at every occurrence of the separator. -/
def splitOnCharList (c : Char) : List Char → List (List Char)
  | [] => [[]]
  | a :: rest =>
    match splitOnCharList c rest with
    | [] => if a = c then [[], []] else [[a]]
    | grp :: rs => if a = c then [] :: grp :: rs else (a :: grp) :: rs

/-- Read a digit string as a number ("426" to 426, anything else to none). -/
def charsToNat? (cs : List Char) : Option ℕ :=
  if cs ≠ [] ∧ cs.all Char.isDigit then
    some (cs.foldl (fun n ch => n * 10 + (ch.toNat - 48)) 0)
  else none

/-- JS `const [width, height] = format.resolution.split("x").map(Number)`:
split a "WxH" string and read both components as numbers (0 when absent). -/
def parseResolution (s : String) : ℕ × ℕ :=
  match (splitOnCharList 'x' s.toList).map (fun cs => (charsToNat? cs).getD 0) with
  | w :: h :: _ => (w, h)
  | [w] => (w, 0)
  | [] => (0, 0)

/-- `getQualityFromResolution(width, height)`: the monotonic height-to-label
mapping (the `width` argument is accepted but unused, as in the source). -/
def getQualityFromResolution (width height : ℕ) : String :=
  if height ≥ 1080 then "1080p"
  else if height ≥ 720 then "720p"
  else if height ≥ 480 then "480p"
  else if height ≥ 360 then "360p"
  else "240p"

/-- The filter step of `processVideoFormats`: ladder entries whose height fits
the source and whose quality label was requested. -/
def availableFormatsFor (metadata : SourceMetadata) (requestedFormats : List String) :
    List FormatSpec :=
  DEFAULT_FORMATS.filter (fun format =>
    decide ((parseResolution format.resolution).2 ≤ metadata.height)
      && requestedFormats.contains format.quality)

/-- The synthetic `original` entry pushed by `processVideoFormats` when no
available entry carries the quality label of the source resolution. -/
def originalEntry (metadata : SourceMetadata) : FormatSpec :=
  { quality := "original"
    resolution := toString metadata.width ++ "x" ++ toString metadata.height
    bitrate := metadata.bitrate
    codec := "libx264" }

/-- The rendition planning phase of `processVideoFormats`:
`options.formats || ["360p","720p"]` (only an absent list falls back — an
empty array is truthy in JS), filter the ladder, then append the synthetic
`original` entry when the quality label of the source resolution is not among
the surviving entries. -/
def planFormats (metadata : SourceMetadata) (optFormats : Option (List String)) :
    List FormatSpec :=
  let requestedFormats := optFormats.getD ["360p", "720p"]
  let availableFormats := availableFormatsFor metadata requestedFormats
  if (availableFormats.find? (fun f =>
        f.quality == getQualityFromResolution metadata.width metadata.height)).isNone then
    availableFormats ++ [originalEntry metadata]
  else
    availableFormats

/-- Concrete 1080p source used in the spec planner examples. -/
def md1080C : SourceMetadata :=
  { duration := 120, width := 1920, height := 1080, fps := 30, codec := "h264",
    bitrate := "5000k" }

/-- Concrete 240p source used in the spec planner examples. -/
def md240C : SourceMetadata :=
  { duration := 60, width := 426, height := 240, fps := 30, codec := "h264",
    bitrate := "400k" }

/-- The thumbnail timestamp loop of `generateThumbnails`:
`(duration / (count + 1)) * (i + 1)` for `i` from `0` to `count - 1`. -/
def thumbnailTimestamps (duration : ℚ) (count : ℕ) : List ℚ :=
  (List.range count).map (fun (i : ℕ) =>
    duration / ((count : ℚ) + 1) * ((i : ℚ) + 1))

/-- A completed rendition entry of the manifest. -/
structure VideoFormat where
  quality : String
  resolution : String
  bitrate : String
  url : String
  size : ℕ
  codec : String
deriving DecidableEq, Repr

/-- A completed thumbnail entry of the manifest. -/
structure VideoThumbnail where
  url : String
  timestamp : ℚ
  width : ℕ
  height : ℕ
  size : ℕ
deriving DecidableEq, Repr

/-- The metadata subset embedded in the returned manifest. -/
structure VideoMeta where
  width : ℕ
  height : ℕ
  fps : ℚ
  codec : String
  bitrate : String
deriving DecidableEq, Repr

/-- The manifest returned by `processVideo`. -/
structure ProcessedVideo where
  duration : ℚ
  originalSize : ℕ
  thumbnails : List VideoThumbnail
  formats : List VideoFormat
  metadata : VideoMeta
  processingTime : ℕ
deriving DecidableEq, Repr

/-- Watermark options (orthogonal to every claim; carried for fidelity). -/
structure WatermarkOptions where
  text : Option String := none
  image : Option String := none
  position : Option String := none
deriving DecidableEq, Repr

/-- `ProcessingOptions` of the orchestrator; absent fields are `none`. -/
structure ProcessingOptions where
  generateThumbnails : Option Bool := none
  thumbnailCount : Option ℕ := none
  formats : Option (List String) := none
  maxDuration : Option ℚ := none
  watermark : Option WatermarkOptions := none
deriving DecidableEq, Repr

/-- JS `options.thumbnailCount || 5`: both an absent and a zero count fall
back to the default (0 is falsy). -/
def thumbnailCountOrDefault (o : Option ℕ) : ℕ :=
  match o with
  | some n => if n = 0 then 5 else n
  | none => 5

/-- JS `options.maxDuration && metadata.duration > options.maxDuration`:
the ceiling is checked only when `maxDuration` is present and nonzero
(0 is falsy), and the violation is strict excess. -/
def maxDurationExceeded (maxDuration : Option ℚ) (duration : ℚ) : Bool :=
  match maxDuration with
  | some m => if m = 0 then false else decide (duration > m)
  | none => false

/-- Outcomes of the external collaborators for one `processVideo` run:
`none` means the corresponding awaited call rejected (threw). A successful
per-rendition / per-thumbnail step yields the blob-store URL and the stat
size of the produced file. `rm` is the outcome of the `finally` block's
`fs.rm(tempDir, ...)` call: it too can throw (`none`), in which case the
source catches the cleanup error and only logs a warning. -/
structure PipelineEnv where
  download : Option Unit
  probe : Option SourceMetadata
  statSize : Option ℕ
  fmtEnv : FormatSpec → Option (String × ℕ)
  thumbEnv : ℕ → Option (String × ℕ)
  elapsed : ℕ
  rm : Option Unit

/-- Hard-failure exits of `processVideo`. -/
inductive PipelineError where
  | downloadFailed
  | probeFailed
  | durationExceeded
  | statFailed
deriving DecidableEq, Repr

/-- The per-rendition loop of `processVideoFormats`: transcode, upload and
stat each planned rendition; a throwing rendition is caught and skipped. -/
def formatsLoop (fmtEnv : FormatSpec → Option (String × ℕ)) :
    List FormatSpec → List VideoFormat
  | [] => []
  | format :: rest =>
    match fmtEnv format with
    | some (url, size) =>
      { quality := format.quality, resolution := format.resolution,
        bitrate := format.bitrate, url := url, size := size,
        codec := format.codec } :: formatsLoop fmtEnv rest
    | none => formatsLoop fmtEnv rest

/-- `processVideoFormats`: plan the renditions, then run the loop. -/
def processVideoFormats (metadata : SourceMetadata) (options : ProcessingOptions)
    (fmtEnv : FormatSpec → Option (String × ℕ)) : List VideoFormat :=
  formatsLoop fmtEnv (planFormats metadata options.formats)

/-- The per-thumbnail loop of `generateThumbnails` (index-aware): extract,
upload and stat each timestamp; a throwing thumbnail is caught and skipped.
Successful entries are pushed with the fixed 320x180 canvas. -/
def thumbsLoopFrom (thumbEnv : ℕ → Option (String × ℕ)) :
    ℕ → List ℚ → List VideoThumbnail
  | _, [] => []
  | i, t :: rest =>
    match thumbEnv i with
    | some (url, size) =>
      { url := url, timestamp := t, width := 320, height := 180,
        size := size } :: thumbsLoopFrom thumbEnv (i + 1) rest
    | none => thumbsLoopFrom thumbEnv (i + 1) rest

/-- `generateThumbnails`: compute the timestamps, then run the loop. -/
def generateThumbnails (metadata : SourceMetadata) (count : ℕ)
    (thumbEnv : ℕ → Option (String × ℕ)) : List VideoThumbnail :=
  thumbsLoopFrom thumbEnv 0 (thumbnailTimestamps metadata.duration count)

/-- Recursive, forced removal of a directory: every path at or below `dir`
disappears (`fs.rm(dir, { recursive : true, force : true })`). -/
def rmRecursive (fs : List String) (dir : String) : List String :=
  fs.filter (fun p => !(p.startsWith dir))

/-- The `try` body of `processVideo`, threading the scratch filesystem:
download, probe, duration ceiling, stat, renditions, thumbnails, manifest.
Every awaited rejection short-circuits with the corresponding error. -/
def processVideoTry (fs : List String) (tempDir : String) (env : PipelineEnv)
    (options : ProcessingOptions) :
    Except PipelineError ProcessedVideo × List String :=
  match env.download with
  | none => (Except.error PipelineError.downloadFailed, fs)
  | some _ =>
    let fs := (tempDir ++ "/input.mp4") :: fs
    match env.probe with
    | none => (Except.error PipelineError.probeFailed, fs)
    | some metadata =>
      if maxDurationExceeded options.maxDuration metadata.duration then
        (Except.error PipelineError.durationExceeded, fs)
      else
        match env.statSize with
        | none => (Except.error PipelineError.statFailed, fs)
        | some originalSize =>
          let plan := planFormats metadata options.formats
          let formats := formatsLoop env.fmtEnv plan
          let fs := (plan.filterMap (fun f =>
            if (env.fmtEnv f).isSome then
              some (tempDir ++ "/output_" ++ f.quality ++ ".mp4")
            else none)) ++ fs
          let count := thumbnailCountOrDefault options.thumbnailCount
          let thumbnails :=
            if options.generateThumbnails ≠ some false then
              generateThumbnails metadata count env.thumbEnv
            else []
          let fs :=
            if options.generateThumbnails ≠ some false then
              ((List.range count).filterMap (fun i =>
                if (env.thumbEnv i).isSome then
                  some (tempDir ++ "/thumbnail_" ++ toString i ++ ".jpg")
                else none)) ++ fs
            else fs
          (Except.ok
            { duration := metadata.duration, originalSize := originalSize,
              thumbnails := thumbnails, formats := formats,
              metadata :=
                { width := metadata.width, height := metadata.height,
                  fps := metadata.fps, codec := metadata.codec,
                  bitrate := metadata.bitrate },
              processingTime := env.elapsed }, fs)

/-- `processVideo`: create the scratch directory, run the `try` body, and
always (`finally`) attempt the recursive removal of the scratch directory.
When the removal call itself throws, the cleanup error is caught and only
logged (`logger.warn`), so the result of the run stands unchanged but the
scratch tree is left on disk. -/
def processVideo (fs0 : List String) (tempDir : String) (env : PipelineEnv)
    (options : ProcessingOptions) :
    Except PipelineError ProcessedVideo × List String :=
  let fs := tempDir :: fs0
  let r := processVideoTry fs tempDir env options
  (r.1, match env.rm with
        | some _ => rmRecursive r.2 tempDir
        | none => r.2)

/-- An in-memory queue job (`VideoJob` of `videoQueue.ts`). -/
structure VideoJob where
  id : String
  videoId : String
  videoUrl : String
  options : ProcessingOptions
  retryCount : ℕ
  maxRetries : ℕ
deriving DecidableEq, Repr

/-- The job constructed by `addJob`: fresh id, `retryCount` 0,
`maxRetries` 3. -/
def mkJob (id videoId videoUrl : String) (options : ProcessingOptions) : VideoJob :=
  { id := id, videoId := videoId, videoUrl := videoUrl, options := options,
    retryCount := 0, maxRetries := 3 }

/-- Result of one `processJob` attempt.
`completed` persists `processing_status = "completed"` together with the
manifest fields for the videoId; `retryScheduled` is a pending
`setTimeout(unshift, delayMs)`; `permanentlyFailed` persists
`processing_status = "failed"` for the videoId. -/
inductive JobOutcome where
  | completed (videoId : String) (result : ProcessedVideo)
  | retryScheduled (delayMs : ℕ) (job : VideoJob)
  | permanentlyFailed (videoId : String)
deriving DecidableEq, Repr

/-- The `catch` branch of `processJob`: increment `retryCount`, then either
schedule a head-of-queue re-insertion after `5000 * retryCount` ms or mark
the video permanently failed. -/
def processJobFailure (j : VideoJob) : JobOutcome :=
  let j2 : VideoJob := { j with retryCount := j.retryCount + 1 }
  if j2.retryCount < j2.maxRetries then
    JobOutcome.retryScheduled (5000 * j2.retryCount) j2
  else
    JobOutcome.permanentlyFailed j.videoId

/-- The scratch directory chosen by `processVideo` for a job (unique per
invocation in the source; keyed by the job id here). -/
def tempDirOf (j : VideoJob) : String :=
  "/tmp/video_processing_" ++ j.id

/-- `processJob`: run the pipeline; persist `completed` with the manifest on
success, otherwise take the `catch` branch. -/
def processJob (j : VideoJob) (env : PipelineEnv) : JobOutcome :=
  match (processVideo [] (tempDirOf j) env j.options).1 with
  | Except.ok result => JobOutcome.completed j.videoId result
  | Except.error _ => processJobFailure j

/-- The retry timer callback target: `this.queue.unshift(job)` — insertion at
the head of the queue. -/
def retryRequeue (queue : List VideoJob) (job : VideoJob) : List VideoJob :=
  job :: queue

/-- Jobs that can ever sit in the queue: those built by `addJob` and those
re-inserted by the retry timer after a failed attempt. -/
inductive ReachableJob : VideoJob → Prop
  | init (id videoId videoUrl : String) (options : ProcessingOptions) :
      ReachableJob (mkJob id videoId videoUrl options)
  | retry (j : VideoJob) (d : ℕ) (j2 : VideoJob) : ReachableJob j →
      processJobFailure j = JobOutcome.retryScheduled d j2 → ReachableJob j2

/-- State of `VideoProcessingQueue` together with the event-loop bookkeeping:
`queue` and `processing` are the fields of the class; `started` records, in
order, the jobs handed to `processJob`; `batch` counts the in-flight jobs of
the current drain pass awaited by `Promise.allSettled`; `scheduled` counts
pending `setImmediate(processQueue)` callbacks. Jobs are identified by
opaque ids. -/
structure QState where
  queue : List ℕ
  processing : Bool
  started : List ℕ
  batch : ℕ
  scheduled : ℕ
deriving DecidableEq, Repr

/-- The initial queue state. -/
def initQ : QState :=
  { queue := [], processing := false, started := [], batch := 0, scheduled := 0 }

/-- One synchronous invocation of `processQueue`: return immediately when
already processing or empty; otherwise set `processing`, shift up to
`concurrency = 2` jobs from the head and start them, leaving the batch
awaited by `Promise.allSettled`. -/
def processQueueCall (s : QState) : QState :=
  if s.processing || s.queue.isEmpty then s
  else
    let n := min 2 s.queue.length
    { queue := s.queue.drop n, processing := true,
      started := s.started ++ s.queue.take n, batch := n,
      scheduled := s.scheduled }

/-- `addJob`: push at the tail, then invoke `processQueue` when the
`processing` flag is down. -/
def addJobQ (s : QState) (j : ℕ) : QState :=
  let s2 : QState := { s with queue := s.queue ++ [j] }
  if !s2.processing then processQueueCall s2 else s2

/-- The retry timer firing: unshift at the head, then invoke `processQueue`
when the `processing` flag is down. -/
def retryFireQ (s : QState) (j : ℕ) : QState :=
  let s2 : QState := { s with queue := j :: s.queue }
  if !s2.processing then processQueueCall s2 else s2

/-- The `await Promise.allSettled(activeJobs)` resuming: the whole started
batch has settled; when the queue is still non-empty schedule another
`setImmediate(processQueue)` pass (the `processing` flag stays up),
otherwise drop the flag. -/
def batchSettleQ (s : QState) : QState :=
  if s.queue.length > 0 then
    { s with batch := 0, scheduled := s.scheduled + 1 }
  else
    { s with batch := 0, processing := false }

/-- A pending `setImmediate(processQueue)` callback firing. -/
def runImmediateQ (s : QState) : QState :=
  processQueueCall { s with scheduled := s.scheduled - 1 }

/-- The reachable states of the queue under the event-loop semantics. -/
inductive QReachable : QState → Prop
  | init : QReachable initQ
  | add (s : QState) (j : ℕ) : QReachable s → QReachable (addJobQ s j)
  | settle (s : QState) : QReachable s → s.batch ≠ 0 → QReachable (batchSettleQ s)
  | timer (s : QState) (j : ℕ) : QReachable s → QReachable (retryFireQ s j)
  | immediate (s : QState) : QReachable s → s.scheduled ≠ 0 →
      QReachable (runImmediateQ s)

/-- The chunking of `batchProcessVideos`: consecutive slices of
`concurrency = 3` source URLs, each awaited by `Promise.allSettled` before
the next slice starts. -/
def batchChunks : List String → List (List String)
  | [] => []
  | [a] => [[a]]
  | [a, b] => [[a, b]]
  | a :: b :: c :: rest => [a, b, c] :: batchChunks rest

/-- `batchProcessVideos`: per chunk, the fulfilled results are appended to
the accumulator and rejections are only logged. -/
def batchProcessVideos (env : String → Option ProcessedVideo)
    (urls : List String) : List ProcessedVideo :=
  (batchChunks urls).foldl (fun acc chunk => acc ++ chunk.filterMap env) []

/-- Helper: adjacency of a mapped range reduces to adjacent indices. -/
theorem chain'_map_range (R : ℚ → ℚ → Prop) (f : ℕ → ℚ) (n : ℕ)
    (h : ∀ m, m + 1 < n → R (f m) (f (m + 1))) :
    List.Chain' R ((List.range n).map f) := by
  rw [List.chain'_map]
  cases n with
  | zero => simp
  | succ k =>
    rw [List.chain'_range_succ]
    intro m hm
    exact h m (by omega)

/-- Helper: the planner output is never empty, whatever the filter left. -/
theorem if_orig_append_ne_nil (l : List FormatSpec) (e : FormatSpec)
    (p : FormatSpec → Bool) :
    (if (l.find? p).isNone then l ++ [e] else l) ≠ [] := by
  by_cases h : (l.find? p).isNone
  · simp [h]
  · cases l with
    | nil => simp at h
    | cons a t => simp [h]

/-- C2 counterexample: for a 1080p source with requested qualities
["360p", "720p"], the planner does NOT return only the two ladder entries —
the quality label of the source resolution ("1080p") is absent from the
filtered list, so the synthetic `original` entry is appended as well. -/
theorem planner_spec_example_refuted :
    planFormats md1080C (some ["360p", "720p"]) ≠
      [ { quality := "360p", resolution := "640x360", bitrate := "800k",
          codec := "libx264" },
        { quality := "720p", resolution := "1280x720", bitrate := "2500k",
          codec := "libx264" } ] := by
  decide

/-- C2 (amended): for source height 1080 and requested ["360p", "720p"] the
planned list is the two ladder entries followed by the synthetic original
entry carrying the source resolution and bitrate; for source height 240 and
the same request it is exactly the single synthetic original entry. -/
theorem planner_spec_examples_amended :
    planFormats md1080C (some ["360p", "720p"]) =
      [ { quality := "360p", resolution := "640x360", bitrate := "800k",
          codec := "libx264" },
        { quality := "720p", resolution := "1280x720", bitrate := "2500k",
          codec := "libx264" },
        { quality := "original", resolution := "1920x1080", bitrate := "5000k",
          codec := "libx264" } ]
    ∧ planFormats md240C (some ["360p", "720p"]) =
      [ { quality := "original", resolution := "426x240", bitrate := "400k",
          codec := "libx264" } ] := by
  exact ⟨by decide, by decide⟩

/-- C8: the rendition planner is total — for every source metadata and every
requested-quality list (present or absent) it yields at least one entry, and
when no ladder entry survives the filter the output is exactly the synthetic
original entry with the native resolution and bitrate. -/
theorem planner_totality (md : SourceMetadata) (rf : Option (List String)) :
    planFormats md rf ≠ [] ∧
    (availableFormatsFor md (rf.getD ["360p", "720p"]) = [] →
      planFormats md rf = [originalEntry md]) := by
  constructor
  · exact if_orig_append_ne_nil (availableFormatsFor md (rf.getD ["360p", "720p"]))
      (originalEntry md) _
  · intro h
    simp [planFormats, h]

/-- C8 witness: concrete instantiation at the 240p source. -/
theorem planner_totality_witness :
    planFormats md240C (some ["360p", "720p"]) ≠ [] ∧
    planFormats md240C (some ["360p", "720p"]) = [originalEntry md240C] :=
  ⟨(planner_totality md240C (some ["360p", "720p"])).1,
   (planner_totality md240C (some ["360p", "720p"])).2 (by decide)⟩

/-- C9: thumbnail timestamps are exactly `duration / (n + 1) * (i + 1)` for
`i` from 0 to `n - 1`; they are non-decreasing for any non-negative duration
and strictly increasing for a positive one; and for duration 60 and count 5
they are exactly [10, 20, 30, 40, 50]. -/
theorem thumbnail_timestamp_spec (d : ℚ) (n : ℕ) (hd : 0 ≤ d) :
    (∀ i : ℕ, i < n →
      (thumbnailTimestamps d n)[i]? = some (d / ((n : ℚ) + 1) * ((i : ℚ) + 1)))
    ∧ List.Chain' (· ≤ ·) (thumbnailTimestamps d n)
    ∧ (0 < d → List.Chain' (· < ·) (thumbnailTimestamps d n))
    ∧ thumbnailTimestamps 60 5 = [10, 20, 30, 40, 50] := by
  refine ⟨?_, ?_, ?_, ?_⟩
  · intro i hi
    rw [thumbnailTimestamps, List.getElem?_map, List.getElem?_range hi]
    rfl
  · rw [thumbnailTimestamps]
    apply chain'_map_range
    intro m hm
    have h0 : (0 : ℚ) ≤ d / ((n : ℚ) + 1) := div_nonneg hd (by positivity)
    apply mul_le_mul_of_nonneg_left _ h0
    push_cast
    linarith
  · intro hdpos
    rw [thumbnailTimestamps]
    apply chain'_map_range
    intro m hm
    have h0 : (0 : ℚ) < d / ((n : ℚ) + 1) := div_pos hdpos (by positivity)
    apply mul_lt_mul_of_pos_left _ h0
    push_cast
    linarith
  · have h : List.range 5 = [0, 1, 2, 3, 4] := by decide
    rw [thumbnailTimestamps, h]
    simp only [List.map]
    norm_num

/-- C9 witness: the theorem at duration 60, count 5. -/
theorem thumbnail_timestamp_spec_witness :
    (0 : ℚ) ≤ 60 ∧ thumbnailTimestamps 60 5 = [10, 20, 30, 40, 50] :=
  ⟨by norm_num, (thumbnail_timestamp_spec 60 5 (by norm_num)).2.2.2⟩

/-- Helper: after a recursive removal nothing below the directory survives. -/
theorem rmRecursive_clears (fs : List String) (d : String) :
    (rmRecursive fs d).any (fun p => p.startsWith d) = false := by
  rw [rmRecursive, List.any_eq_false]
  intro p hp
  rw [List.mem_filter] at hp
  simpa using hp.2

/-- C7 (amended): on every exit path of `processVideo` — manifest returned
or any stage throwing — the recursive removal of the scratch directory is
attempted; whenever that removal call succeeds, no path at or below the
scratch directory remains on disk. When the removal itself throws, the
cleanup error is swallowed: whatever its outcome, the result of the run
(manifest or error) is exactly that of the `try` body. -/
theorem scratch_dir_removed (fs0 : List String) (tempDir : String)
    (env : PipelineEnv) (options : ProcessingOptions)
    (h : env.rm = some ()) :
    ((processVideo fs0 tempDir env options).2.any
      (fun p => p.startsWith tempDir)) = false
    ∧ (∀ r : Option Unit,
        (processVideo fs0 tempDir { env with rm := r } options).1 =
          (processVideoTry (tempDir :: fs0) tempDir { env with rm := r }
            options).1) := by
  constructor
  · rw [processVideo, h]
    exact rmRecursive_clears _ _
  · intro r
    rfl

/-- C7 counterexample: when the `fs.rm` call of the `finally` block throws,
the error is caught and only logged, and the scratch directory is still on
disk after `processVideo` completes — refuting the unconditional claim that
no code path leaves scratch files behind. -/
theorem scratch_dir_claim_refuted :
    "/tmp/video_processing_w7" ∈
      (processVideo [] "/tmp/video_processing_w7"
        { download := some (), probe := some md1080C, statSize := some 7,
          fmtEnv := fun _ => some ("https://blob/video", 9),
          thumbEnv := fun _ => some ("https://blob/thumb", 3),
          elapsed := 0, rm := none }
        { generateThumbnails := some false }).2 := by
  decide

/-- C7 witness: a run whose removal call succeeds leaves nothing below the
scratch directory. -/
theorem scratch_dir_removed_witness :
    ({ download := some (), probe := some md1080C, statSize := some 7,
       fmtEnv := fun _ => some ("https://blob/video", 9),
       thumbEnv := fun _ => some ("https://blob/thumb", 3),
       elapsed := 0, rm := some () } : PipelineEnv).rm = some ()
    ∧ ((processVideo [] "/tmp/video_processing_w7"
        { download := some (), probe := some md1080C, statSize := some 7,
          fmtEnv := fun _ => some ("https://blob/video", 9),
          thumbEnv := fun _ => some ("https://blob/thumb", 3),
          elapsed := 0, rm := some () }
        { generateThumbnails := some false }).2.any
          (fun p => p.startsWith "/tmp/video_processing_w7")) = false :=
  ⟨rfl,
   (scratch_dir_removed [] "/tmp/video_processing_w7"
     { download := some (), probe := some md1080C, statSize := some 7,
       fmtEnv := fun _ => some ("https://blob/video", 9),
       thumbEnv := fun _ => some ("https://blob/thumb", 3),
       elapsed := 0, rm := some () }
     { generateThumbnails := some false } rfl).1⟩

/-- Helper: the pipeline exits with the duration error exactly when the
download and probe succeeded and the probed duration trips the ceiling. -/
theorem processVideoTry_duration_error (fs : List String) (dir : String)
    (env : PipelineEnv) (o : ProcessingOptions) :
    (processVideoTry fs dir env o).1 = Except.error PipelineError.durationExceeded ↔
    ∃ md, env.download = some () ∧ env.probe = some md ∧
      maxDurationExceeded o.maxDuration md.duration = true := by
  rw [processVideoTry]
  cases hdl : env.download with
  | none => simp
  | some u =>
    cases hpr : env.probe with
    | none => simp
    | some md =>
      by_cases hex : maxDurationExceeded o.maxDuration md.duration
      · simp [hex]
      · cases hst : env.statSize with
        | none => simp [hex, hst]
        | some sz => simp [hex, hst]

/-- C10: the duration ceiling is only enforced for a truthy `maxDuration` —
for an absent or zero ceiling the check is skipped and the duration error is
unreachable; for a positive ceiling the error fires exactly on strict excess
of the probed duration (equality passes). -/
theorem duration_limit_edge (d m : ℚ) (hm : 0 < m) :
    maxDurationExceeded none d = false
    ∧ maxDurationExceeded (some 0) d = false
    ∧ (maxDurationExceeded (some m) d = true ↔ m < d)
    ∧ (∀ (fs0 : List String) (dir : String) (env : PipelineEnv)
        (o : ProcessingOptions),
        o.maxDuration = none ∨ o.maxDuration = some 0 →
        (processVideo fs0 dir env o).1 ≠ Except.error PipelineError.durationExceeded)
    ∧ (∀ (fs0 : List String) (dir : String) (env : PipelineEnv)
        (o : ProcessingOptions) (md : SourceMetadata),
        o.maxDuration = some m → env.download = some () → env.probe = some md →
        ((processVideo fs0 dir env o).1 = Except.error PipelineError.durationExceeded
          ↔ m < md.duration)) := by
  refine ⟨rfl, by simp [maxDurationExceeded], ?_, ?_, ?_⟩
  · simp [maxDurationExceeded, hm.ne']
  · intro fs0 dir env o ho h
    have h1 : (processVideoTry (dir :: fs0) dir env o).1 =
        Except.error PipelineError.durationExceeded := h
    rw [processVideoTry_duration_error] at h1
    obtain ⟨md, _, _, hx⟩ := h1
    rcases ho with ho | ho <;> rw [ho] at hx <;> simp [maxDurationExceeded] at hx
  · intro fs0 dir env o md hmo hdl hpr
    have h1 : (processVideo fs0 dir env o).1 =
        (processVideoTry (dir :: fs0) dir env o).1 := rfl
    rw [h1, processVideoTry_duration_error]
    constructor
    · rintro ⟨md2, _, hpr2, hx⟩
      rw [hpr] at hpr2
      cases hpr2
      rw [hmo] at hx
      simpa [maxDurationExceeded, hm.ne'] using hx
    · intro hlt
      exact ⟨md, hdl, hpr, by simp [hmo, maxDurationExceeded, hm.ne', hlt]⟩

/-- Pipeline environment where every collaborator call succeeds. -/
def envAllOk : PipelineEnv :=
  { download := some (), probe := some md1080C, statSize := some 7,
    fmtEnv := fun _ => some ("https://blob/video", 9),
    thumbEnv := fun _ => some ("https://blob/thumb", 3),
    elapsed := 0, rm := some () }

/-- C10 witness: a 120 s source against a 10 s ceiling trips the error. -/
theorem duration_limit_edge_witness :
    (0 : ℚ) < 10
    ∧ ((processVideo [] "/tmp/video_processing_w" envAllOk
          { maxDuration := some 10 }).1 =
            Except.error PipelineError.durationExceeded
        ↔ (10 : ℚ) < md1080C.duration) :=
  ⟨by norm_num,
   (duration_limit_edge 0 10 (by norm_num)).2.2.2.2 [] "/tmp/video_processing_w"
     envAllOk { maxDuration := some 10 } md1080C rfl rfl rfl⟩

/-- Helper: inversion of the retry branch of the `catch` handler. -/
theorem processJobFailure_retry_inv (j : VideoJob) (d : ℕ) (j2 : VideoJob)
    (h : processJobFailure j = JobOutcome.retryScheduled d j2) :
    j2 = { j with retryCount := j.retryCount + 1 }
    ∧ d = 5000 * (j.retryCount + 1)
    ∧ j.retryCount + 1 < j.maxRetries := by
  rw [processJobFailure] at h
  split at h
  · rename_i hc
    injection h with h1 h2
    exact ⟨h2.symm, h1.symm, hc⟩
  · exact absurd h (by simp)

/-- C3: per failed attempt, `retryCount` rises by exactly one; below the
ceiling the job is re-scheduled for head-of-queue insertion after
`5000 * retryCount` ms; at the ceiling the videoId is persisted `failed` and
nothing is re-scheduled; every job reachable through the retry loop keeps
`retryCount < maxRetries = 3`, so the counter never exceeds the ceiling; and
any hard pipeline error routes `processJob` into this `catch` handler. -/
theorem retry_backoff_policy :
    (∀ j : VideoJob, j.retryCount + 1 < j.maxRetries →
      processJobFailure j = JobOutcome.retryScheduled (5000 * (j.retryCount + 1))
        { j with retryCount := j.retryCount + 1 })
    ∧ (∀ j : VideoJob, j.maxRetries ≤ j.retryCount + 1 →
      processJobFailure j = JobOutcome.permanentlyFailed j.videoId)
    ∧ (∀ (q : List VideoJob) (j : VideoJob), retryRequeue q j = j :: q)
    ∧ (∀ (j : VideoJob) (d : ℕ) (j2 : VideoJob),
        processJobFailure j = JobOutcome.retryScheduled d j2 →
        j2.retryCount = j.retryCount + 1 ∧ d = 5000 * j2.retryCount
          ∧ j2.retryCount < j2.maxRetries)
    ∧ (∀ j : VideoJob, ReachableJob j →
        j.retryCount < j.maxRetries ∧ j.maxRetries = 3)
    ∧ (∀ (j : VideoJob) (env : PipelineEnv) (e : PipelineError),
        (processVideo [] (tempDirOf j) env j.options).1 = Except.error e →
        processJob j env = processJobFailure j) := by
  refine ⟨?_, ?_, ?_, ?_, ?_, ?_⟩
  · intro j h
    rw [processJobFailure]
    split
    · rfl
    · rename_i hc
      exact absurd h hc
  · intro j h
    rw [processJobFailure]
    split
    · rename_i hc
      exact absurd (show j.retryCount + 1 < j.maxRetries from hc) (by omega)
    · rfl
  · intro q j
    rfl
  · intro j d j2 h
    obtain ⟨h1, h2, h3⟩ := processJobFailure_retry_inv j d j2 h
    subst h1
    exact ⟨rfl, h2, h3⟩
  · intro j h
    induction h with
    | init id videoId videoUrl options => exact ⟨by norm_num [mkJob], rfl⟩
    | retry j d j2 hr heq ih =>
      obtain ⟨h1, _, h3⟩ := processJobFailure_retry_inv j d j2 heq
      subst h1
      exact ⟨h3, ih.2⟩
  · intro j env e h
    rw [processJob, h]

/-- C3 witness: a fresh job (retryCount 0, maxRetries 3) failing once is
re-scheduled after 5000 ms with retryCount 1, and stays below the ceiling. -/
theorem retry_backoff_policy_witness :
    (mkJob "job1" "vid1" "url1" {}).retryCount + 1 <
      (mkJob "job1" "vid1" "url1" {}).maxRetries
    ∧ processJobFailure (mkJob "job1" "vid1" "url1" {}) =
        JobOutcome.retryScheduled 5000
          { mkJob "job1" "vid1" "url1" {} with retryCount := 1 }
    ∧ (mkJob "job1" "vid1" "url1" {}).retryCount <
        (mkJob "job1" "vid1" "url1" {}).maxRetries :=
  ⟨by decide,
   retry_backoff_policy.1 (mkJob "job1" "vid1" "url1" {}) (by decide),
   (retry_backoff_policy.2.2.2.2.1 (mkJob "job1" "vid1" "url1" {})
     (ReachableJob.init "job1" "vid1" "url1" {})).1⟩

/-- Reachable queue state after: three `addJob` calls (the first triggers a
drain pass that starts only job 1), the started batch settling (another pass
is scheduled via `setImmediate`), and that scheduled pass firing. -/
def stallState : QState :=
  runImmediateQ (batchSettleQ (addJobQ (addJobQ (addJobQ initQ 1) 2) 3))

/-- C1 refutation (code bug): the queue reaches a state where jobs 2 and 3
are still queued, nothing is in flight, no drain pass is pending, yet the
`processing` flag is stuck `true` — the `setImmediate` pass returned at the
`if (this.processing)` guard without starting anything, a further
`processQueue` call is a no-op, and later `addJob` calls cannot start jobs
either, so admitted jobs 2 and 3 are never started. -/
theorem queue_drain_stall :
    QReachable stallState
    ∧ stallState.queue = [2, 3]
    ∧ stallState.batch = 0
    ∧ stallState.scheduled = 0
    ∧ stallState.processing = true
    ∧ stallState.started = [1]
    ∧ processQueueCall stallState = stallState
    ∧ (∀ j : ℕ, (addJobQ stallState j).started = stallState.started) := by
  refine ⟨?_, by decide, by decide, by decide, by decide, by decide, by decide, ?_⟩
  · exact QReachable.immediate _
      (QReachable.settle _
        (QReachable.add _ 3 (QReachable.add _ 2 (QReachable.add _ 1 QReachable.init)))
        (by decide))
      (by decide)
  · intro j
    have hp : stallState.processing = true := by decide
    simp [addJobQ, hp]

/-- Helper: one `processQueue` invocation keeps the batch within the
concurrency cap and only holds a batch while the `processing` flag is up. -/
theorem processQueueCall_inv (s : QState)
    (h : s.batch ≤ 2 ∧ (s.batch ≠ 0 → s.processing = true)) :
    (processQueueCall s).batch ≤ 2
    ∧ ((processQueueCall s).batch ≠ 0 → (processQueueCall s).processing = true) := by
  rw [processQueueCall]
  split
  · exact h
  · exact ⟨min_le_left 2 _, fun _ => rfl⟩

/-- Helper: the cap invariant holds in every reachable queue state. -/
theorem qreach_inv (s : QState) (h : QReachable s) :
    s.batch ≤ 2 ∧ (s.batch ≠ 0 → s.processing = true) := by
  induction h with
  | init => exact ⟨by decide, by decide⟩
  | add s j hr ih =>
    rw [addJobQ]
    split
    · exact processQueueCall_inv _ ih
    · exact ih
  | settle s hr hb ih =>
    rw [batchSettleQ]
    split
    · exact ⟨by simp, fun hc => absurd rfl hc⟩
    · exact ⟨by simp, fun hc => absurd rfl hc⟩
  | timer s j hr ih =>
    rw [retryFireQ]
    split
    · exact processQueueCall_inv _ ih
    · exact ih
  | immediate s hr hs ih =>
    exact processQueueCall_inv _ ih

/-- Helper: every chunk of the batch runner has at most 3 URLs. -/
theorem batchChunks_length_le (urls : List String) :
    ∀ c ∈ batchChunks urls, c.length ≤ 3 := by
  induction urls using batchChunks.induct with
  | case1 => simp [batchChunks]
  | case2 a => simp [batchChunks]
  | case3 a b => simp [batchChunks]
  | case4 a b c rest ih =>
    intro x hx
    rw [batchChunks] at hx
    rcases List.mem_cons.mp hx with h | h
    · simp [h]
    · exact ih x h

/-- Helper: the chunks partition the URL list in order. -/
theorem batchChunks_flatten (urls : List String) :
    (batchChunks urls).flatten = urls := by
  induction urls using batchChunks.induct with
  | case1 => rfl
  | case2 a => rfl
  | case3 a b => rfl
  | case4 a b c rest ih => simp [batchChunks, ih]

/-- C4: bounded concurrency. In every reachable queue state the in-flight
batch has at most 2 jobs; while a batch is in flight no event (admission,
retry timer, scheduled pass) starts another job, so new runs begin only
after the current batch has settled; and the batch runner drives the
pipeline over chunks of at most 3 URLs, which partition the input in
order (one chunk is awaited before the next starts). -/
theorem bounded_concurrency :
    (∀ s : QState, QReachable s → s.batch ≤ 2)
    ∧ (∀ s : QState, QReachable s → s.batch ≠ 0 → ∀ j : ℕ,
        (addJobQ s j).started = s.started
        ∧ (retryFireQ s j).started = s.started
        ∧ (runImmediateQ s).started = s.started)
    ∧ (∀ (urls : List String) (c : List String), c ∈ batchChunks urls →
        c.length ≤ 3)
    ∧ (∀ urls : List String, (batchChunks urls).flatten = urls) := by
  refine ⟨?_, ?_, ?_, ?_⟩
  · intro s h
    exact (qreach_inv s h).1
  · intro s h hb j
    have hp : s.processing = true := (qreach_inv s h).2 hb
    refine ⟨?_, ?_, ?_⟩
    · simp [addJobQ, hp]
    · simp [retryFireQ, hp]
    · simp [runImmediateQ, processQueueCall, hp]
  · intro urls c hc
    exact batchChunks_length_le urls c hc
  · exact batchChunks_flatten

/-- C4 witness: concrete instantiations of each capped bound. -/
theorem bounded_concurrency_witness :
    initQ.batch ≤ 2
    ∧ (addJobQ (addJobQ initQ 1) 7).started = (addJobQ initQ 1).started
    ∧ (["a", "b", "c"] : List String).length ≤ 3
    ∧ (batchChunks ["a", "b", "c", "d"]).flatten = ["a", "b", "c", "d"] :=
  ⟨bounded_concurrency.1 initQ QReachable.init,
   ((bounded_concurrency.2.1 (addJobQ initQ 1)
      (QReachable.add initQ 1 QReachable.init) (by decide) 7).1),
   bounded_concurrency.2.2.1 ["a", "b", "c", "d"] ["a", "b", "c"] (by decide),
   bounded_concurrency.2.2.2 ["a", "b", "c", "d"]⟩

/-- Helper: every manifest rendition entry originates from a planned spec
whose transcode/upload/stat chain succeeded, copying its URL and size. -/
theorem formatsLoop_mem (e : FormatSpec → Option (String × ℕ))
    (l : List FormatSpec) (vf : VideoFormat) (h : vf ∈ formatsLoop e l) :
    ∃ g ∈ l, e g = some (vf.url, vf.size) ∧ vf.quality = g.quality := by
  induction l with
  | nil => simp [formatsLoop] at h
  | cons a t ih =>
    rw [formatsLoop] at h
    cases he : e a with
    | some p =>
      obtain ⟨u, s⟩ := p
      rw [he] at h
      rcases List.mem_cons.mp h with h1 | h1
      · subst h1
        exact ⟨a, List.mem_cons_self a t, by simp [he]⟩
      · obtain ⟨g, hg, h2, h3⟩ := ih h1
        exact ⟨g, List.mem_cons_of_mem a hg, h2, h3⟩
    | none =>
      rw [he] at h
      obtain ⟨g, hg, h2, h3⟩ := ih h
      exact ⟨g, List.mem_cons_of_mem a hg, h2, h3⟩

/-- Helper: a planned spec whose chain succeeded contributes an entry. -/
theorem formatsLoop_mem_of (e : FormatSpec → Option (String × ℕ))
    (l : List FormatSpec) (g : FormatSpec) (u : String) (s : ℕ)
    (hg : g ∈ l) (he : e g = some (u, s)) :
    ∃ vf ∈ formatsLoop e l, vf.quality = g.quality ∧ vf.url = u ∧ vf.size = s := by
  induction l with
  | nil => simp at hg
  | cons a t ih =>
    rcases List.mem_cons.mp hg with h1 | h1
    · subst h1
      refine ⟨VideoFormat.mk g.quality g.resolution g.bitrate u s g.codec,
        ?_, rfl, rfl, rfl⟩
      simp only [formatsLoop, he]
      exact List.mem_cons_self _ _
    · obtain ⟨vf, hvf, h2⟩ := ih h1
      refine ⟨vf, ?_, h2⟩
      rw [formatsLoop]
      cases hea : e a with
      | some p =>
        obtain ⟨u2, s2⟩ := p
        exact List.mem_cons_of_mem _ hvf
      | none => exact hvf

/-- Helper: every manifest thumbnail entry originates from an index whose
extract/upload/stat chain succeeded, copying its URL and size. -/
theorem thumbsLoopFrom_mem (e : ℕ → Option (String × ℕ)) (ts : List ℚ)
    (i : ℕ) (t : VideoThumbnail) (h : t ∈ thumbsLoopFrom e i ts) :
    ∃ k, e k = some (t.url, t.size) := by
  induction ts generalizing i with
  | nil => simp [thumbsLoopFrom] at h
  | cons a rest ih =>
    rw [thumbsLoopFrom] at h
    cases he : e i with
    | some p =>
      obtain ⟨u, s⟩ := p
      rw [he] at h
      rcases List.mem_cons.mp h with h1 | h1
      · subst h1
        exact ⟨i, by simp [he]⟩
      · exact ih (i + 1) h1
    | none =>
      rw [he] at h
      exact ih (i + 1) h

/-- Helper: the manifest produced when every hard stage succeeds. -/
def okManifest (env : PipelineEnv) (o : ProcessingOptions)
    (md : SourceMetadata) (sz : ℕ) : ProcessedVideo :=
  { duration := md.duration, originalSize := sz,
    thumbnails :=
      if o.generateThumbnails ≠ some false then
        generateThumbnails md (thumbnailCountOrDefault o.thumbnailCount) env.thumbEnv
      else [],
    formats := formatsLoop env.fmtEnv (planFormats md o.formats),
    metadata :=
      { width := md.width, height := md.height, fps := md.fps,
        codec := md.codec, bitrate := md.bitrate },
    processingTime := env.elapsed }

/-- Helper: when download, probe, ceiling and stat all pass, the pipeline
returns the assembled manifest. -/
theorem processVideoTry_ok (fs : List String) (dir : String) (env : PipelineEnv)
    (o : ProcessingOptions) (md : SourceMetadata) (sz : ℕ)
    (hdl : env.download = some ()) (hpr : env.probe = some md)
    (hst : env.statSize = some sz)
    (hdur : maxDurationExceeded o.maxDuration md.duration = false) :
    (processVideoTry fs dir env o).1 = Except.ok (okManifest env o md sz) := by
  rw [processVideoTry]
  simp [hdl, hpr, hst, hdur, okManifest]

/-- Helper: conversely, an `ok` exit pins down the stage outcomes and the
returned manifest. -/
theorem processVideoTry_ok_inv (fs : List String) (dir : String)
    (env : PipelineEnv) (o : ProcessingOptions) (pv : ProcessedVideo)
    (h : (processVideoTry fs dir env o).1 = Except.ok pv) :
    ∃ md sz, env.download = some () ∧ env.probe = some md
      ∧ env.statSize = some sz
      ∧ maxDurationExceeded o.maxDuration md.duration = false
      ∧ pv = okManifest env o md sz := by
  cases hdl : env.download with
  | none =>
    have he : (processVideoTry fs dir env o).1 =
        Except.error PipelineError.downloadFailed := by
      rw [processVideoTry]; simp [hdl]
    exact absurd (he.symm.trans h) (by simp)
  | some u =>
    cases hpr : env.probe with
    | none =>
      have he : (processVideoTry fs dir env o).1 =
          Except.error PipelineError.probeFailed := by
        rw [processVideoTry]; simp [hdl, hpr]
      exact absurd (he.symm.trans h) (by simp)
    | some md =>
      cases hex : maxDurationExceeded o.maxDuration md.duration with
      | true =>
        have he : (processVideoTry fs dir env o).1 =
            Except.error PipelineError.durationExceeded := by
          rw [processVideoTry]; simp [hdl, hpr, hex]
        exact absurd (he.symm.trans h) (by simp)
      | false =>
        cases hst : env.statSize with
        | none =>
          have he : (processVideoTry fs dir env o).1 =
              Except.error PipelineError.statFailed := by
            rw [processVideoTry]; simp [hdl, hpr, hex, hst]
          exact absurd (he.symm.trans h) (by simp)
        | some sz =>
          have hf := processVideoTry_ok fs dir env o md sz hdl hpr hst hex
          exact ⟨md, sz, rfl, rfl, rfl, hex,
            (Except.ok.inj (hf.symm.trans h)).symm⟩

/-- C6: every element of `formats` and `thumbnails` in a returned manifest
comes from a fully successful transcode/extract + upload + stat chain — a
failed artifact is entirely absent — so, under the blob-store/filesystem
contract that a successful upload yields a non-empty URL and a produced file
has positive size, every element has a non-empty `url` and `size > 0`. -/
theorem manifest_element_invariant (env : PipelineEnv) (o : ProcessingOptions)
    (fs0 : List String) (dir : String) (pv : ProcessedVideo)
    (hfmt : ∀ g u s, env.fmtEnv g = some (u, s) → u ≠ "" ∧ 0 < s)
    (hth : ∀ i u s, env.thumbEnv i = some (u, s) → u ≠ "" ∧ 0 < s)
    (hok : (processVideo fs0 dir env o).1 = Except.ok pv) :
    (∀ vf ∈ pv.formats, vf.url ≠ "" ∧ 0 < vf.size)
    ∧ (∀ t ∈ pv.thumbnails, t.url ≠ "" ∧ 0 < t.size) := by
  have h1 : (processVideoTry (dir :: fs0) dir env o).1 = Except.ok pv := hok
  obtain ⟨md, sz, _, _, _, _, hpv⟩ := processVideoTry_ok_inv _ _ _ _ _ h1
  subst hpv
  constructor
  · intro vf hvf
    simp only [okManifest] at hvf
    obtain ⟨g, hg, hge, hq⟩ := formatsLoop_mem _ _ _ hvf
    exact hfmt g vf.url vf.size hge
  · intro t ht
    simp only [okManifest] at ht
    by_cases hgen : o.generateThumbnails ≠ some false
    · rw [if_pos hgen, generateThumbnails] at ht
      obtain ⟨k, hk⟩ := thumbsLoopFrom_mem _ _ _ _ ht
      exact hth k t.url t.size hk
    · rw [if_neg hgen] at ht
      simp at ht

/-- The manifest the all-succeeding environment yields for the 1080p source
with thumbnails disabled. -/
def pvC6 : ProcessedVideo :=
  { duration := 120, originalSize := 7, thumbnails := [],
    formats :=
      [ { quality := "360p", resolution := "640x360", bitrate := "800k",
          url := "https://blob/video", size := 9, codec := "libx264" },
        { quality := "720p", resolution := "1280x720", bitrate := "2500k",
          url := "https://blob/video", size := 9, codec := "libx264" },
        { quality := "original", resolution := "1920x1080", bitrate := "5000k",
          url := "https://blob/video", size := 9, codec := "libx264" } ],
    metadata := { width := 1920, height := 1080, fps := 30, codec := "h264",
                  bitrate := "5000k" },
    processingTime := 0 }

/-- C6 witness: concrete all-succeeding run. -/
theorem manifest_element_invariant_witness :
    (processVideo [] "/tmp/video_processing_w6" envAllOk
        { generateThumbnails := some false }).1 = Except.ok pvC6
    ∧ (∀ vf ∈ pvC6.formats, vf.url ≠ "" ∧ 0 < vf.size)
    ∧ (∀ t ∈ pvC6.thumbnails, t.url ≠ "" ∧ 0 < t.size) := by
  have hok : (processVideo [] "/tmp/video_processing_w6" envAllOk
      { generateThumbnails := some false }).1 = Except.ok pvC6 := rfl
  have h := manifest_element_invariant envAllOk { generateThumbnails := some false }
      [] "/tmp/video_processing_w6" pvC6
      (fun g u s hg => by
        simp only [envAllOk] at hg
        injection hg with h2
        injection h2 with h3 h4
        subst h3
        subst h4
        exact ⟨by decide, by decide⟩)
      (fun i u s hi => by
        simp only [envAllOk] at hi
        injection hi with h2
        injection h2 with h3 h4
        subst h3
        subst h4
        exact ⟨by decide, by decide⟩)
      hok
  exact ⟨hok, h.1, h.2⟩

/-- C5: when the hard stages pass and at least one planned rendition
succeeds while another one throws, the throw is absorbed inside the
per-rendition loop — `processVideo` still returns a manifest — the failed
rendition is absent from `formats`, the successful one is present, and
`processJob` persists status `completed`, not `failed`. -/
theorem partial_success_contract (env : PipelineEnv) (j : VideoJob)
    (md : SourceMetadata) (sz : ℕ) (u : String) (n : ℕ)
    (fbad fok : FormatSpec)
    (hdl : env.download = some ())
    (hpr : env.probe = some md)
    (hst : env.statSize = some sz)
    (hdur : maxDurationExceeded j.options.maxDuration md.duration = false)
    (hokmem : fok ∈ planFormats md j.options.formats)
    (hfail : env.fmtEnv fbad = none)
    (hsucc : env.fmtEnv fok = some (u, n))
    (huniq : ∀ g ∈ planFormats md j.options.formats,
      g.quality = fbad.quality → g = fbad) :
    ∃ pv, (processVideo [] (tempDirOf j) env j.options).1 = Except.ok pv
      ∧ (∀ vf ∈ pv.formats, vf.quality ≠ fbad.quality)
      ∧ (∃ vf ∈ pv.formats, vf.quality = fok.quality ∧ vf.url = u ∧ vf.size = n)
      ∧ processJob j env = JobOutcome.completed j.videoId pv := by
  have hok : (processVideo [] (tempDirOf j) env j.options).1 =
      Except.ok (okManifest env j.options md sz) :=
    processVideoTry_ok _ _ _ _ _ _ hdl hpr hst hdur
  refine ⟨okManifest env j.options md sz, hok, ?_, ?_, ?_⟩
  · intro vf hvf heq
    simp only [okManifest] at hvf
    obtain ⟨g, hg, hge, hq⟩ := formatsLoop_mem _ _ _ hvf
    have hgb : g = fbad := huniq g hg (by rw [← hq]; exact heq)
    subst hgb
    rw [hfail] at hge
    cases hge
  · simp only [okManifest]
    exact formatsLoop_mem_of env.fmtEnv _ fok u n hokmem hsucc
  · rw [processJob, hok]

/-- The 720p source of the partial-failure scenario. -/
def md720C : SourceMetadata :=
  { duration := 60, width := 1280, height := 720, fps := 30, codec := "h264",
    bitrate := "2500k" }

/-- The 360p ladder entry. -/
def e360spec : FormatSpec :=
  { quality := "360p", resolution := "640x360", bitrate := "800k",
    codec := "libx264" }

/-- The 720p ladder entry. -/
def e720spec : FormatSpec :=
  { quality := "720p", resolution := "1280x720", bitrate := "2500k",
    codec := "libx264" }

/-- Environment where the 720p transcode throws and everything else works. -/
def envPartial : PipelineEnv :=
  { download := some (), probe := some md720C, statSize := some 5,
    fmtEnv := fun g =>
      if g.quality == "720p" then none else some ("https://blob/v360", 4),
    thumbEnv := fun _ => none, elapsed := 0, rm := some () }

/-- The job of the partial-failure scenario. -/
def jobC5 : VideoJob :=
  mkJob "job5" "vid5" "url5" { generateThumbnails := some false }

/-- C5 witness: the spec scenario — 720p throws, 360p succeeds; the job
completes with the 360p entry only. -/
theorem partial_success_contract_witness :
    ∃ pv, (processVideo [] (tempDirOf jobC5) envPartial jobC5.options).1 =
        Except.ok pv
      ∧ (∀ vf ∈ pv.formats, vf.quality ≠ e720spec.quality)
      ∧ (∃ vf ∈ pv.formats, vf.quality = e360spec.quality
          ∧ vf.url = "https://blob/v360" ∧ vf.size = 4)
      ∧ processJob jobC5 envPartial = JobOutcome.completed jobC5.videoId pv :=
  partial_success_contract envPartial jobC5 md720C 5 "https://blob/v360" 4
    e720spec e360spec rfl rfl rfl rfl (by decide) rfl rfl (by decide)
